import Mathlib

/-!
Verification of the gobigbang/binder request-binding engine.

This file shallowly embeds the Go sources of the binder: the regexp-based
notation scanners (`ArrayMatcherRegexp`, `MapMatcherRegexp`, `PathMatcherRegexp`),
the `strconv` parsers used by the scalar setters (`setIntField`, `setUintField`,
`setBoolField`, `setFloatField`), the key projection helpers
(`getPrefixedFieldNames`, `trimData`, `trimFileFields`), the collection builder
(`handleArrayValues`), the multipart-file helpers (`isFieldMultipartFile`,
`setMultipartFileHeaderTypes`), the recursive orchestrator (`bindData`) and the
per-source entry points (`BindPathParams`, `BindQueryParams`, `BindBody`,
`BindHeaders`, `Bind`).

Go's mutable destinations are modelled by explicit state passing: each
operation takes the destination value and returns the (possibly partially)
updated value together with an optional error, mirroring Go's in-place
mutation plus returned `error`.  Go `map[string][]string` data is modelled as
an association list in a fixed iteration order.  Places where the Go code
would panic via the `reflect` package (never exercised by any theorem below)
are marked with the dedicated error `BindErr.goPanic`.
-/

namespace GB

/-! ## String primitives

Character-list forms of the Go `strings` functions the binder uses; all
strings involved are ASCII. -/

/-- Model of `strings.HasPrefix`. -/
def strHasPrefix (s pre : String) : Bool := pre.data.isPrefixOf s.data

/-- ASCII lower-casing, character by character (model of the lower-casing
`strings.EqualFold` performs on ASCII letters). -/
def strToLower (s : String) : String := String.mk (s.data.map Char.toLower)

/-- White-space class of `strings.TrimSpace` restricted to ASCII. -/
def isSpaceChar (c : Char) : Bool :=
  c = ' ' ∨ c = '\t' ∨ c = '\n' ∨ c = '\x0b' ∨ c = '\x0c' ∨ c = '\r'

/-- Model of `strings.TrimSpace` on ASCII strings. -/
def strTrim (s : String) : String :=
  String.mk (((s.data.dropWhile isSpaceChar).reverse.dropWhile isSpaceChar).reverse)

/-- Part of the string before the first occurrence of the separator character
(the whole string when absent) — the `before` component of `strings.Cut` for
a one-character separator. -/
def cutBefore (s : String) (sep : Char) : String :=
  String.mk (s.data.takeWhile (fun c => c ≠ sep))

/-! ## Character classes of the notation regexps -/

/-- Digit class `[0-9]` of `ArrayMatcherRegexp`. -/
def isDigitChar (c : Char) : Bool := '0' ≤ c && c ≤ '9'

/-- Character class `[a-zA-Z0-9\-\_\.]` of `MapMatcherRegexp` and
`ArrayNotationRegexp` (ASCII letters, digits, dash, underscore, dot). -/
def isMapKeyChar (c : Char) : Bool :=
  c.isAlpha || c.isDigit || c = '-' || c = '_' || c = '.'

/-- Model of Go `regexp.FindAllStringSubmatch` for the bracket-shaped patterns
used by the binder (`\[([c]+)\]` for a character class `c`, and `\{([^}]+)\}`):
scan left to right; a match starts at `openC`, captures a maximal nonempty run
of `allowed` characters, and requires `closeC` right after; on success the scan
resumes after the closing bracket, on failure at the next character.  Since the
closing bracket is never in the character class, this reproduces RE2's
leftmost, non-overlapping matches for these patterns. -/
def scanGroupsAux (openC closeC : Char) (allowed : Char → Bool) :
    Nat → List Char → List String
  | 0, _ => []
  | _, [] => []
  | fuel + 1, c :: rest =>
    let grp := rest.takeWhile allowed
    let after := rest.drop grp.length
    if c = openC ∧ ¬grp.isEmpty ∧ after.head? = some closeC then
      String.mk grp :: scanGroupsAux openC closeC allowed fuel after.tail
    else
      scanGroupsAux openC closeC allowed fuel rest

/-- Entry point of the scan.  The fuel `cs.length` is exact: each step of
`scanGroupsAux` consumes at least one character (`rest` and `after.tail` are
at most one shorter than the input), so the fuel never runs out; it only makes
the recursion structural. -/
def scanGroups (openC closeC : Char) (allowed : Char → Bool) (cs : List Char) : List String :=
  scanGroupsAux openC closeC allowed cs.length cs

/-- Capture groups of `ArrayMatcherRegexp = \[([0-9]+)\]` over a key. -/
def arrayMatcherCaptures (s : String) : List String :=
  scanGroups '[' ']' isDigitChar s.data

/-- Capture groups of `MapMatcherRegexp = \[([a-zA-Z0-9\-\_\.]+)\]` over a key. -/
def mapMatcherCaptures (s : String) : List String :=
  scanGroups '[' ']' isMapKeyChar s.data

/-- Capture groups of `ArrayNotationRegexp`, which is the same pattern as
`MapMatcherRegexp`. -/
def arrayNotationCaptures (s : String) : List String :=
  mapMatcherCaptures s

/-- Capture groups of `PathMatcherRegexp = \{([^}]+)\}` over a route pattern. -/
def pathMatcherCaptures (s : String) : List String :=
  scanGroups '{' '}' (fun c => c ≠ '}') s.data

/-! ## strconv parsers

These model Go's `strconv.ParseInt` / `ParseUint` / `ParseBool` / `ParseFloat`
as used by the setters (always base 10).  A parse result of `none` stands for a
returned `*strconv.NumError`.  Scope notes: `ParseFloat`'s hexadecimal floats,
digit-separating underscores and its overflow-to-infinity range error are not
modelled; its special values (`inf`, `infinity`, `nan`, case-insensitive, sign
allowed on the infinities) parse successfully and are represented by `0` since
they fall outside `ℚ` and no theorem below inspects them. -/

/-- Numeric value of a decimal digit character. -/
def digitVal (c : Char) : Nat := c.toNat - '0'.toNat

/-- Value of a digit string, most significant digit first. -/
def natOfDigits (ds : List Char) : Nat :=
  ds.foldl (fun acc c => acc * 10 + digitVal c) 0

/-- Optional leading sign of a numeral (`-` negative, `+` positive, none
otherwise); the empty case is unreachable from the callers, which test for
emptiness first. -/
def signSplit : List Char → Bool × List Char
  | [] => (false, [])
  | c :: rest =>
    if c = '-' then (true, rest) else if c = '+' then (false, rest) else (false, c :: rest)

/-- Parse a nonempty, all-digit character list. -/
def decDigits? (ds : List Char) : Option Nat :=
  if ds.isEmpty ∨ ¬ds.all isDigitChar then none else some (natOfDigits ds)

/-- Model of `strconv.ParseInt(s, 10, bitSize)`: optional sign, decimal digits,
range check for the requested width (`bitSize` 0 means the platform `int`,
64 bits here; widths above 64 are a bit-size error). -/
def goParseInt (s : String) (bitSize : Nat) : Option Int :=
  if 64 < bitSize then none else
  let b := if bitSize = 0 then 64 else bitSize
  if s.data.isEmpty then none else
  let p := signSplit s.data
  match decDigits? p.2 with
  | none => none
  | some n =>
    let v : Int := if p.1 then -(n : Int) else (n : Int)
    if -(2 ^ (b - 1) : Int) ≤ v ∧ v ≤ 2 ^ (b - 1) - 1 then some v else none

/-- Model of `strconv.ParseUint(s, 10, bitSize)`: no sign permitted, decimal
digits, range check for the requested width. -/
def goParseUint (s : String) (bitSize : Nat) : Option Nat :=
  if 64 < bitSize then none else
  let b := if bitSize = 0 then 64 else bitSize
  match decDigits? s.data with
  | none => none
  | some n => if n ≤ 2 ^ b - 1 then some n else none

/-- Model of `strconv.ParseBool`: accepts exactly the literals Go accepts. -/
def goParseBool (s : String) : Option Bool :=
  if s = "1" ∨ s = "t" ∨ s = "T" ∨ s = "true" ∨ s = "TRUE" ∨ s = "True" then some true
  else if s = "0" ∨ s = "f" ∨ s = "F" ∨ s = "false" ∨ s = "FALSE" ∨ s = "False" then some false
  else none

/-- Mantissa of a decimal float: `digits [. digits]` or `. digits`, value as a
rational. -/
def parseMant (cs : List Char) : Option ℚ :=
  let ip := cs.takeWhile isDigitChar
  let rest := cs.drop ip.length
  match rest with
  | [] => if ip.isEmpty then none else some (natOfDigits ip : ℚ)
  | '.' :: fp =>
    if fp.all isDigitChar ∧ (¬ip.isEmpty ∨ ¬fp.isEmpty) then
      some ((natOfDigits ip : ℚ) + (natOfDigits fp : ℚ) / (10 : ℚ) ^ fp.length)
    else none
  | _ => none

/-- Exponent part of a decimal float (after the `e`/`E`): optional sign then
digits. -/
def parseExp (cs : List Char) : Option Int :=
  if cs.isEmpty then none else
  let p := signSplit cs
  match decDigits? p.2 with
  | none => none
  | some n => some (if p.1 then -(n : Int) else (n : Int))

/-- Mantissa and optional exponent, split at the first `e`/`E`. -/
def parseMantExp (cs : List Char) : Option ℚ :=
  let mant := cs.takeWhile (fun c => c ≠ 'e' ∧ c ≠ 'E')
  let rest := cs.drop mant.length
  match parseMant mant with
  | none => none
  | some m =>
    match rest with
    | [] => some m
    | _ :: ex =>
      match parseExp ex with
      | none => none
      | some e => some (m * (10 : ℚ) ^ e)

/-- Model of `strconv.ParseFloat` for decimal numerals (see the scope note
above for the unmodelled forms). -/
def goParseFloat (s : String) : Option ℚ :=
  let lower := strToLower s
  if lower = "inf" ∨ lower = "+inf" ∨ lower = "-inf" ∨ lower = "infinity" ∨
      lower = "+infinity" ∨ lower = "-infinity" ∨ lower = "nan" then some 0
  else if s.data.isEmpty then none
  else
    let p := signSplit s.data
    match parseMantExp p.2 with
    | none => none
    | some q => some (if p.1 then -q else q)

/-! ## Errors -/

/-- Errors produced by the binding engine.  Constructors mirror the error
values of the Go code; `parseFailure` stands for a propagated
`*strconv.NumError` (carrying the string handed to `strconv`), `external` for
an error reported by a pluggable body deserializer, and `goPanic` marks flows
on which the Go code would panic inside `reflect` (never reached by the
theorems below). -/
inductive BindErr where
  | unsupportedMediaType
  | notStruct
  | invalidArrayIndex (k : String)
  | arraySizeExceeded (field : String) (max : Nat)
  | unknownType
  | fileHeaderValueNotSupported
  | parseFailure (input : String)
  | external (msg : String)
  | goPanic
deriving DecidableEq, Repr

/-! ## Scalar setters

Each setter models the Go function of the same name: the destination field is
passed in and the returned value is the field after the call (Go sets the
field only when parsing succeeded, so on error the original value is
returned). -/

/-- Model of `setIntField`: empty input becomes `"0"`, then
`strconv.ParseInt`; the field is assigned only on success. -/
def setIntField (value : String) (bitSize : Nat) (field : Int) : Int × Option BindErr :=
  let v := if value = "" then "0" else value
  match goParseInt v bitSize with
  | some n => (n, none)
  | none => (field, some (.parseFailure v))

/-- Model of `setUintField`: empty input becomes `"0"`, then
`strconv.ParseUint`. -/
def setUintField (value : String) (bitSize : Nat) (field : Nat) : Nat × Option BindErr :=
  let v := if value = "" then "0" else value
  match goParseUint v bitSize with
  | some n => (n, none)
  | none => (field, some (.parseFailure v))

/-- Model of `setBoolField`: empty input becomes `"false"`, then
`strconv.ParseBool`. -/
def setBoolField (value : String) (field : Bool) : Bool × Option BindErr :=
  let v := if value = "" then "false" else value
  match goParseBool v with
  | some b => (b, none)
  | none => (field, some (.parseFailure v))

/-- Model of `setFloatField`: empty input becomes `"0.0"`, then
`strconv.ParseFloat` (the bit size only selects the float width in Go and does
not affect the success of parsing the zero literal). -/
def setFloatField (value : String) (_bitSize : Nat) (field : ℚ) : ℚ × Option BindErr :=
  let v := if value = "" then "0.0" else value
  match goParseFloat v with
  | some q => (q, none)
  | none => (field, some (.parseFailure v))

/-! ## Data model -/

/-- Opaque uploaded-file descriptor (`*multipart.FileHeader`); only the name
is modelled, the open/read capability is irrelevant to binding. -/
structure FileHeader where
  filename : String
deriving DecidableEq, Repr

/-- Go `map[string][]string` (`url.Values`), as an association list in a fixed
iteration order. -/
abbrev Data := List (String × List String)

/-- Go `map[string][]*multipart.FileHeader`. -/
abbrev Files := List (String × List FileHeader)

/-- Map update with Go `m[k] = v` semantics on the association-list model. -/
def upsert {α : Type} (m : List (String × α)) (k : String) (v : α) : List (String × α) :=
  if m.any (fun kv => kv.1 = k) then
    m.map (fun kv => if kv.1 = k then (k, v) else kv)
  else m ++ [(k, v)]

/-! ## Notation resolver (`getPrefixedFieldNames`) and data projector -/

/-- Decision of `getPrefixedFieldNames` for one key `k`: a key that starts
with `pre ++ sep` is rewritten by stripping that prefix; otherwise a key that
starts with `pre` and on which the matcher finds capture groups is rewritten
by joining the captures (up to the first empty capture, per the `break` in the
Go loop) with the separator; all other keys are dropped. -/
def prefixedFieldName (pre : String) (matcher : String → List String) (sep k : String) :
    Option String :=
  if strHasPrefix k pre then
    if strHasPrefix k (pre ++ sep) then
      some (k.drop (pre ++ sep).length)
    else
      let ms := matcher k
      if ms.length > 0 then
        some (String.intercalate sep (ms.takeWhile (fun v => v ≠ "")))
      else none
  else none

/-- Model of `getPrefixedFieldNames`: original key → rewritten canonical
sub-key, for the keys that belong to the prefix. -/
def getPrefixedFieldNames (pre : String) (keys : List String)
    (matcher : String → List String) (sep : String) : List (String × String) :=
  keys.foldl (fun result k =>
    match prefixedFieldName pre matcher sep k with
    | some v => upsert result k v
    | none => result) []

/-- Model of `trimData`: narrow a value map to one field prefix, re-keyed by
the canonical sub-keys. -/
def trimData (pre : String) (data : Data) (matcher : String → List String) (sep : String) :
    Data :=
  let fieldNames := getPrefixedFieldNames pre (data.map (·.1)) matcher sep
  fieldNames.foldl (fun result kv => upsert result kv.2 ((data.lookup kv.1).getD [])) []

/-- Model of `trimFileFields`.  The Go source assigns each key twice in a
duplicated loop; the second pass overwrites with the same value, so a single
pass is equivalent. -/
def trimFileFields (pre : String) (files : Files) (matcher : String → List String)
    (sep : String) : Files :=
  let fieldNames := getPrefixedFieldNames pre (files.map (·.1)) matcher sep
  fieldNames.foldl (fun result kv => upsert result kv.2 ((files.lookup kv.1).getD [])) []

/-! ## Destination values -/

/-- Model of a Go destination value for the shapes this development needs:
scalars, `[]int` / `[]string` collections, the four string-keyed map element
shapes discussed by the code (`interface{}`, `string`, `[]string`, and the
unsupported `int`), the four file-handle shapes, and records.  A record's
field sequence is represented inline as a `vStructCons`-chain ending in
`vStructNil` (so that the field walk is plain structural recursion); each
field carries its tag map (tag name → external key) and its current value. -/
inductive Val where
  | vStr (s : String)
  | vInt (n : Int)
  | vBool (b : Bool)
  | vFloat (q : ℚ)
  | vIntSlice (xs : List Int)
  | vStrSlice (xs : List String)
  | vMapIface (m : List (String × String))
  | vMapStr (m : List (String × String))
  | vMapStrSlice (m : List (String × List String))
  | vMapInt (m : List (String × Int))
  | vFilePtr (f : Option FileHeader)
  | vFileVal (f : FileHeader)
  | vFileValSlice (fs : List FileHeader)
  | vFilePtrSlice (fs : List FileHeader)
  | vStructNil
  | vStructCons (tags : List (String × String)) (v : Val) (rest : Val)
deriving DecidableEq, Repr

/-- Tag map of one struct field: tag name → external key. -/
abbrev FieldTags := List (String × String)

/-- Record value with the given field list. -/
def vStructOf : List (FieldTags × Val) → Val
  | [] => .vStructNil
  | (tags, v) :: rest => .vStructCons tags v (vStructOf rest)

/-- Relevant cases of `reflect.Kind` for the modelled value shapes
(`multipart.FileHeader` is a struct, `*multipart.FileHeader` a pointer). -/
inductive GoKind where
  | kString | kInt | kBool | kFloat | kSlice | kMap | kStruct | kPtr
deriving DecidableEq, Repr

/-- The `reflect.Kind` of a modelled value. -/
def Val.kind : Val → GoKind
  | .vStr _ => .kString
  | .vInt _ => .kInt
  | .vBool _ => .kBool
  | .vFloat _ => .kFloat
  | .vIntSlice _ => .kSlice
  | .vStrSlice _ => .kSlice
  | .vMapIface _ => .kMap
  | .vMapStr _ => .kMap
  | .vMapStrSlice _ => .kMap
  | .vMapInt _ => .kMap
  | .vFilePtr _ => .kPtr
  | .vFileVal _ => .kStruct
  | .vFileValSlice _ => .kSlice
  | .vFilePtrSlice _ => .kSlice
  | .vStructNil => .kStruct
  | .vStructCons _ _ _ => .kStruct

/-! ## Multipart file helpers -/

/-- Model of `isFieldMultipartFile`: recognizes the four file-handle shapes;
the bare `multipart.FileHeader` value shape is recognized but reported as
unsupported. -/
def isFieldMultipartFile : Val → Bool × Option BindErr
  | .vFilePtr _ => (true, none)
  | .vFileValSlice _ => (true, none)
  | .vFilePtrSlice _ => (true, none)
  | .vFileVal _ => (true, some .fileHeaderValueNotSupported)
  | _ => (false, none)

/-- Model of `setMultipartFileHeaderTypes`: with zero files under the key no
assignment is made (`false`); otherwise the three supported shapes receive
the files (a single pointer receives the first file). -/
def setMultipartFileHeaderTypes (structField : Val) (inputFieldName : String) (files : Files) :
    Val × Bool :=
  match (files.lookup inputFieldName).getD [] with
  | [] => (structField, false)
  | f :: fs =>
    match structField with
    | .vFilePtrSlice _ => (.vFilePtrSlice (f :: fs), true)
    | .vFileValSlice _ => (.vFileValSlice (f :: fs), true)
    | .vFilePtr _ => (.vFilePtr (some f), true)
    | v => (v, false)

/-! ## Type coercer at the value level -/

/-- Model of `setWithProperType` for the modelled destination shapes.  None of
them implement `BindUnmarshaler` or `encoding.TextUnmarshaler`, so the
unmarshal attempt at the top of the Go function always falls through; shapes
outside the scalar cases land in the `default` branch ("unknown type"), which
is also where Go ends up for a dereferenced `*multipart.FileHeader`. -/
def setWithProperType (s : String) : Val → Val × Option BindErr
  | .vStr _ => (.vStr s, none)
  | .vInt n => let r := setIntField s 0 n; (.vInt r.1, r.2)
  | .vBool b => let r := setBoolField s b; (.vBool r.1, r.2)
  | .vFloat q => let r := setFloatField s 64 q; (.vFloat r.1, r.2)
  | v => (v, some .unknownType)

/-! ## Collection builder -/

/-- Core of `handleArrayValues`, generic in the element type: for every
trimmed key, `strconv.Atoi` the index (Atoi is `ParseInt(s, 10, 0)`), reject
non-numeric indices, reject indices above the configured maximum, grow the
slice to `index+1` preserving existing elements, and coerce the first value
into the slot.  On an element-coercion error the grown slice is not committed
(Go returns before `structValue.Set`). -/
def handleArrayFold {α : Type} (zero : α) (setE : String → α → α × Option BindErr)
    (maxA : Nat) (inputFieldName : String) :
    List (String × List String) → List α → List α × Option BindErr
  | [], xs => (xs, none)
  | (k, v) :: rest, xs =>
    match goParseInt k 0 with
    | none => (xs, some (.invalidArrayIndex k))
    | some i =>
      if (maxA : Int) < i then (xs, some (.arraySizeExceeded inputFieldName maxA))
      else if i < 0 then (xs, some .goPanic)  -- reflect.MakeSlice / Value.Index panic
      else
        let idx := i.toNat
        let xs' := if xs.length = 0 then List.replicate (idx + 1) zero
                   else if xs.length ≤ idx then xs ++ List.replicate (idx + 1 - xs.length) zero
                   else xs
        match v with
        | [] => (xs, some .goPanic)  -- Go indexes v[0]
        | s :: _ =>
          match setE s (xs'.getD idx zero) with
          | (_, some e) => (xs, some e)
          | (x, none) => handleArrayFold zero setE maxA inputFieldName rest (xs'.set idx x)

/-- Model of `handleArrayValues`, dispatching on the slice's element shape
(for the file-handle element shapes `setWithProperType` reports "unknown
type"); a non-slice destination is left untouched. -/
def handleArrayValues (structValue : Val) (values : Data) (inputFieldName : String)
    (maxA : Nat) : Val × Option BindErr :=
  match structValue with
  | .vIntSlice xs =>
    let r := handleArrayFold 0 (fun s x => setIntField s 0 x) maxA inputFieldName values xs
    (.vIntSlice r.1, r.2)
  | .vStrSlice xs =>
    let r := handleArrayFold "" (fun s _ => (s, none)) maxA inputFieldName values xs
    (.vStrSlice r.1, r.2)
  | .vFileValSlice xs =>
    let r := handleArrayFold ⟨""⟩ (fun _ x => (x, some .unknownType)) maxA inputFieldName values xs
    (.vFileValSlice r.1, r.2)
  | .vFilePtrSlice xs =>
    let r := handleArrayFold ⟨""⟩ (fun _ x => (x, some .unknownType)) maxA inputFieldName values xs
    (.vFilePtrSlice r.1, r.2)
  | v => (v, none)

/-- Flat-path element fold for the repeated-values slice build: coerce each
value left to right; the first failure aborts and the built slice is
discarded. -/
def flatFold {α : Type} (setE : String → α → α × Option BindErr) (zero : α) :
    List String → List α × Option BindErr
  | [] => ([], none)
  | s :: rest =>
    match setE s zero with
    | (_, some e) => ([], some e)
    | (x, none) =>
      match flatFold setE zero rest with
      | (_, some e) => ([], some e)
      | (xs, none) => (x :: xs, none)

/-- Model of the repeated-flat-values slice path of `bindData`: make a fresh
slice of the input length, coerce every element, and replace the destination
wholesale on success; on failure the destination keeps its previous value. -/
def buildFlatSlice (v : Val) (vals : List String) : Val × Option BindErr :=
  match v with
  | .vIntSlice old =>
    match flatFold (fun s x => setIntField s 0 x) 0 vals with
    | (xs, none) => (.vIntSlice xs, none)
    | (_, some e) => (.vIntSlice old, some e)
  | .vStrSlice _ => (.vStrSlice vals, none)
  | .vFileValSlice old =>
    if vals.isEmpty then (.vFileValSlice [], none) else (.vFileValSlice old, some .unknownType)
  | .vFilePtrSlice old =>
    if vals.isEmpty then (.vFilePtrSlice [], none) else (.vFilePtrSlice old, some .unknownType)
  | x => (x, none)

/-! ## Key lookup with case-insensitive fallback -/

/-- ASCII model of `strings.EqualFold` (every key in this development is
ASCII). -/
def eqFold (a b : String) : Bool := strToLower a = strToLower b

/-- Direct map lookup, then the case-insensitive linear scan over all keys
(first match wins). -/
def lookupFold (data : Data) (key : String) : Option (List String) :=
  match data.lookup key with
  | some v => some v
  | none => data.findSome? (fun kv => if eqFold kv.1 key then some kv.2 else none)

/-- Side effect of the unmarshal attempts on a pointer field: a nil pointer is
materialized (`reflect.New`) before the interface checks, and this mutation
persists even though the checks fail for every modelled shape. -/
def allocIfNilPtr : Val → Val
  | .vFilePtr none => .vFilePtr (some ⟨""⟩)
  | v => v

/-! ## Map-destination population -/

/-- Population of a map destination whose elements take only the first string
of each value sequence (`map[string]string` and, for backward compatibility,
`map[string]interface{}`). -/
def mapFoldFirst (m : List (String × String)) : Data → List (String × String) × Option BindErr
  | [] => (m, none)
  | (_, []) :: _ => (m, some .goPanic)  -- Go indexes v[0]
  | (k, s :: _) :: rest => mapFoldFirst (upsert m k s) rest

/-- Population of a `map[string][]string` destination: each key receives its
full ordered value sequence. -/
def mapFoldAll (m : List (String × List String)) :
    Data → List (String × List String) × Option BindErr
  | [] => (m, none)
  | (k, v) :: rest => mapFoldAll (upsert m k v) rest

/-! ## Binder configuration and requests -/

/-- Model of `BindableRequest`: the per-invocation view an external adapter
supplies (path pattern and values, query, headers, parsed form, parsed
multipart values and files, content length). -/
structure Request where
  pathPattern : String
  pathValue : String → String
  query : Data
  headers : Data
  contentLength : Int
  form : Data
  multipartValues : Data
  multipartFiles : Files

/-- Model of the `DefaultBinder` configuration built by `NewBinder`: tag
names, notation matchers (as capture-group functions), collection bound,
separator, and the two pluggable body deserializers (external delegates). -/
structure Config where
  paramTag : String
  queryTag : String
  formTag : String
  headerTag : String
  maxArraySize : Nat
  deepSeparator : String
  arrayCaptures : String → List String
  mapCaptures : String → List String
  arrayNotationCapturesFn : String → List String
  pathCaptures : String → List String
  jsonDeserialize : Request → Val → Val × Option BindErr
  xmlDeserialize : Request → Val → Val × Option BindErr

/-- Configuration produced by `NewBinder` with the default tag names,
matchers, separator and `MaxArraySize = 1000`; the deserializers stay
pluggable parameters. -/
def defaultConfig (jsonDe xmlDe : Request → Val → Val × Option BindErr) : Config :=
  { paramTag := "param"
    queryTag := "query"
    formTag := "form"
    headerTag := "header"
    maxArraySize := 1000
    deepSeparator := "."
    arrayCaptures := arrayMatcherCaptures
    mapCaptures := mapMatcherCaptures
    arrayNotationCapturesFn := arrayNotationCaptures
    pathCaptures := pathMatcherCaptures
    jsonDeserialize := jsonDe
    xmlDeserialize := xmlDe }

/-! ## Record binder (`bindData`) -/

/-- Steps 6–10 of the per-field flow of `bindData`: resolve the direct value
(exact key, then case-insensitive scan), skip on absence, fall through the
unmarshal attempts (keeping their pointer-materializing side effect),
dereference a pointer field, then either build the slice from the full value
sequence or coerce the first value. -/
def directBind (data : Data) (v : Val) (inputFieldName : String) : Val × Option BindErr :=
  match lookupFold data inputFieldName with
  | none => (v, none)
  | some [] => (v, some .goPanic)  -- Go indexes inputValue[0]
  | some (s :: rest) =>
    let v1 := allocIfNilPtr v
    match v1.kind with
    | .kPtr => (v1, some .unknownType)  -- dereferenced file pointer has struct kind
    | .kSlice => buildFlatSlice v1 (s :: rest)
    | _ => setWithProperType s v1

/-- File gate of the per-field flow (`if hasFiles { ... }`): when file data is
present and the field has a file-handle shape, an unsupported shape aborts
with its error and a successful assignment finishes the field; otherwise
(including zero files under the key, where no assignment is made) the flow
falls through with the field unchanged. -/
def fileGate (v : Val) (inputFieldName : String) (files : Files) :
    Option (Val × Option BindErr) :=
  if files.isEmpty then none
  else
    match isFieldMultipartFile v with
    | (_, some e) => some (v, some e)
    | (true, none) =>
      match setMultipartFileHeaderTypes v inputFieldName files with
      | (v', true) => some (v', none)
      | (_, false) => none
    | (false, none) => none

/-- Model of `DefaultBinder.bindData` (the orchestrator): empty input is a
no-op; string-keyed map destinations of supported element shape are populated
directly and the call returns (unsupported element shapes return success
untouched); otherwise the destination must be a record — any other shape is an
error except under the path/query/header tags.  A record's fields are
processed in declaration order along the `vStructCons` chain: the inlined
per-field flow is Go's loop body (untagged fields recurse only when they are
plain records; tagged fields go through the file gate when file data is
present; record fields are projected to their prefix and recursed into; map
and slice fields are projected and recursed into or built and then fall
through to the direct-value resolution — the Go code has no `continue` there;
everything else resolves its direct value), and the first error stops the
walk, keeping every mutation already made while leaving the remaining fields
untouched.  Re-entering `bindData` for the tail of the chain re-checks the
empty-input guard, which is neutral: the guard's outcome depends only on
`data` and `files`, which do not change along the walk. -/
def bindData (cfg : Config) (dest : Val) (data : Data) (tag : String) (files : Files) :
    Val × Option BindErr :=
  if data.isEmpty ∧ files.isEmpty then (dest, none) else
  match dest with
  | .vMapStr m => let r := mapFoldFirst m data; (.vMapStr r.1, r.2)
  | .vMapIface m => let r := mapFoldFirst m data; (.vMapIface r.1, r.2)
  | .vMapStrSlice m => let r := mapFoldAll m data; (.vMapStrSlice r.1, r.2)
  | .vMapInt m => (.vMapInt m, none)
  | .vFileVal f => (.vFileVal f, none)  -- recursion into the tag-less FileHeader struct binds nothing
  | .vStructNil => (.vStructNil, none)
  | .vStructCons tags v rest =>
    let step : Val × Option BindErr :=
      let inputFieldName := (tags.lookup tag).getD ""
      if inputFieldName = "" then
        if v.kind = .kStruct then bindData cfg v data tag files else (v, none)
      else
        match fileGate v inputFieldName files with
        | some r => r
        | none =>
          match v.kind with
          | .kStruct =>
            bindData cfg v
              (trimData inputFieldName data cfg.arrayNotationCapturesFn cfg.deepSeparator) tag
              (trimFileFields inputFieldName files cfg.arrayNotationCapturesFn cfg.deepSeparator)
          | .kMap =>
            match bindData cfg v
                (trimData inputFieldName data cfg.mapCaptures cfg.deepSeparator) tag
                (trimFileFields inputFieldName files cfg.mapCaptures cfg.deepSeparator) with
            | (v2, some e) => (v2, some e)
            | (v2, none) => directBind data v2 inputFieldName
          | .kSlice =>
            match handleArrayValues v
                (trimData inputFieldName data cfg.arrayCaptures cfg.deepSeparator)
                inputFieldName cfg.maxArraySize with
            | (v2, some e) => (v2, some e)
            | (v2, none) => directBind data v2 inputFieldName
          | _ => directBind data v inputFieldName
    match step with
    | (v', some e) => (.vStructCons tags v' rest, some e)
    | (v', none) =>
      let r := bindData cfg rest data tag files
      (.vStructCons tags v' r.1, r.2)
  | v =>
    if tag = cfg.paramTag ∨ tag = cfg.queryTag ∨ tag = cfg.headerTag then (v, none)
    else (v, some .notStruct)
termination_by structural dest

/-! ## Per-source entry points and the overall `Bind` -/

/-- Model of `url.Values.Get`: first value under the key, empty string when
absent. -/
def headersGet (headers : Data) (key : String) : String :=
  ((headers.lookup key).getD []).headD ""

/-- Model of `GetPathParams`: parse the route pattern with the path matcher
and pair every parameter name with its path value (empty pattern or no
parameter names yield the empty map). -/
def GetPathParams (cfg : Config) (r : Request) : Data :=
  if r.pathPattern = "" then []
  else (cfg.pathCaptures r.pathPattern).foldl
    (fun values name => upsert values name [r.pathValue name]) []

/-- Model of `BindPathParams`: bind the path-parameter map under the param
tag. -/
def BindPathParams (cfg : Config) (r : Request) (i : Val) : Val × Option BindErr :=
  bindData cfg i (GetPathParams cfg r) cfg.paramTag []

/-- Model of `BindQueryParams`: bind the query map under the query tag. -/
def BindQueryParams (cfg : Config) (r : Request) (i : Val) : Val × Option BindErr :=
  bindData cfg i r.query cfg.queryTag []

/-- Mediatype extraction of `BindBody`: content-type header cut at the first
`;` and trimmed, like `mime.ParseMediaType` does for the base type. -/
def mediatypeOf (r : Request) : String :=
  strTrim (cutBefore (headersGet r.headers "Content-Type") ';')

/-- Model of `BindBody`: nonpositive content length is a no-op; dispatch on
the normalized content type to the JSON/XML delegates, the parsed form under
the form tag, or the multipart values and files under the form tag; anything
else is an unsupported media type. -/
def BindBody (cfg : Config) (r : Request) (i : Val) : Val × Option BindErr :=
  if r.contentLength ≤ 0 then (i, none)
  else
    let mt := mediatypeOf r
    if mt = "application/json" then cfg.jsonDeserialize r i
    else if mt = "application/xml" ∨ mt = "text/xml" then cfg.xmlDeserialize r i
    else if mt = "application/x-www-form-urlencoded" then bindData cfg i r.form cfg.formTag []
    else if mt = "multipart/form-data" then
      bindData cfg i r.multipartValues cfg.formTag r.multipartFiles
    else (i, some .unsupportedMediaType)

/-- Model of `BindHeaders` as written in the analyzed `DefaultBinder`
revision: the header map is bound under the FORM tag name (the call is
`b.bindData(i, r.GetHeaders(), b.FormTagName, nil)`). -/
def BindHeaders (cfg : Config) (r : Request) (i : Val) : Val × Option BindErr :=
  bindData cfg i r.headers cfg.formTag []

/-- Model of the sibling `binder.go` revision of `BindHeaders`, which binds
the header map under the header tag name. -/
def BindHeadersHeaderTag (cfg : Config) (r : Request) (i : Val) : Val × Option BindErr :=
  bindData cfg i r.headers cfg.headerTag []

/-- Model of `DefaultBinder.Bind` with the `BindOrder` installed by
`NewBinder`: path parameters, then query parameters, then the body, stopping
at the first stage error. -/
def Bind (cfg : Config) (r : Request) (i : Val) : Val × Option BindErr :=
  [BindPathParams, BindQueryParams, BindBody].foldl
    (fun acc f => match acc with
      | (v, some e) => (v, some e)
      | (v, none) => f cfg r v) (i, none)

/-! ## Concrete scenarios used by the theorems -/

/-- Deserializer delegate that leaves the destination untouched, for
configurations whose body stage never participates. -/
def idDeserializer : Request → Val → Val × Option BindErr := fun _ v => (v, none)

/-- Default configuration with inert body delegates. -/
def cfg0 : Config := defaultConfig idDeserializer idDeserializer

/-- Destination with one integer-list field tagged `form:"elements"`. -/
def elementsDest : Val := vStructOf [([("form", "elements")], .vIntSlice [])]

/-- Destination with one string field tagged for all three bind-order
sources (path parameter, query parameter, JSON body). -/
def precedenceDest : Val :=
  vStructOf [([("param", "name"), ("query", "name"), ("json", "name")], .vStr "")]

/-- Request carrying path value `name=a`, query value `name=b` and a JSON
body (the body bytes themselves live behind the JSON delegate). -/
def precedenceReq : Request :=
  Request.mk "/{name}" (fun k => if k = "name" then "a" else "") [("name", ["b"])]
    [("Content-Type", ["application/json"])] 24 [] [] []

/-- JSON delegate behaving like `encoding/json` on the body
`{"name":"c"}` against `precedenceDest`: it overwrites the field tagged
`json:"name"` with `"c"`. -/
def precedenceJsonDelegate : Request → Val → Val × Option BindErr := fun _ v =>
  match v with
  | .vStructCons tags (.vStr _) rest => (.vStructCons tags (.vStr "c") rest, none)
  | v => (v, none)

/-- Destination with one string field tagged `header:"X-Header-Value"` (and
no form tag), as in the case-insensitive header-binding scenario. -/
def headerDest : Val := vStructOf [([("header", "X-Header-Value")], .vStr "")]

/-- Request whose transport lower-cased the header name: it carries
`x-header-value: v`. -/
def headerReq : Request :=
  Request.mk "" (fun _ => "") [] [("x-header-value", ["v"])] 0 [] [] []

/-- Request carrying no header that matches `X-Header-Value` in any case. -/
def headerAbsentReq : Request :=
  Request.mk "" (fun _ => "") [] [("Other", ["v"])] 0 [] [] []

/-- Destination with three tagged fields (string, int, string), used for the
error-propagation scenario. -/
def rollbackDest : Val :=
  vStructOf [([("query", "name")], .vStr ""), ([("query", "age")], .vInt 0),
    ([("query", "email")], .vStr "")]

/-- Query data whose `age` value is a malformed numeral. -/
def rollbackData : Data := [("name", ["John"]), ("age", ["abc"]), ("email", ["j@x"])]

/-- Request carrying `rollbackData` as its query. -/
def rollbackReq : Request :=
  Request.mk "" (fun _ => "") rollbackData [] 0 [] [] []

/-- Uploaded-file descriptor used by the file-shape scenarios. -/
def sampleFile : FileHeader := ⟨"f.txt"⟩

/-! ## Helper lemmas -/

/-- Zero parses as a signed integer at every valid bit size. -/
theorem goParseInt_zero_literal {b : Nat} (hb : b ≤ 64) : goParseInt "0" b = some 0 := by
  have hpow : (0 : Int) < 2 ^ ((if b = 0 then 64 else b) - 1) := pow_pos (by norm_num) _
  have h0 : (String.data "0").isEmpty = false := by decide
  have h1 : decDigits? (signSplit (String.data "0")).2 = some 0 := by decide
  have h2 : (signSplit (String.data "0")).1 = false := by decide
  unfold goParseInt
  rw [if_neg (by omega)]
  simp only [h0, Bool.false_eq_true, if_false, h1, h2, Nat.cast_zero]
  rw [if_pos ⟨by omega, by omega⟩]

/-- Zero parses as an unsigned integer at every valid bit size. -/
theorem goParseUint_zero_literal {b : Nat} (hb : b ≤ 64) : goParseUint "0" b = some 0 := by
  have h1 : decDigits? (String.data "0") = some 0 := by decide
  unfold goParseUint
  rw [if_neg (by omega)]
  simp only [h1]
  rw [if_pos (Nat.zero_le _)]

/-- The zero-float mantissa `0.0` evaluates to the rational zero. -/
theorem parseMant_zero : parseMant ['0', '.', '0'] = some 0 := by
  have h : parseMant ['0', '.', '0']
      = some ((natOfDigits ['0'] : ℚ)
          + (natOfDigits ['0'] : ℚ) / (10 : ℚ) ^ (['0'] : List Char).length) := rfl
  have hn : natOfDigits ['0'] = 0 := by decide
  rw [h, hn]
  norm_num

/-- The zero float literal parses to zero. -/
theorem goParseFloat_zero_literal : goParseFloat "0.0" = some 0 := by
  have hme : parseMantExp ['0', '.', '0'] = some 0 := by
    have h : parseMantExp ['0', '.', '0']
        = match parseMant ['0', '.', '0'] with
          | none => none
          | some m => some m := rfl
    rw [h, parseMant_zero]
  have hl : strToLower "0.0" = "0.0" := by decide
  have hs2 : (signSplit (String.data "0.0")).2 = ['0', '.', '0'] := by decide
  have hs1 : (signSplit (String.data "0.0")).1 = false := by decide
  have hie : (String.data "0.0").isEmpty = false := by decide
  unfold goParseFloat
  simp [hl, hs2, hs1, hie, hme]

/-- Population of a first-value map destination, under nonempty value
sequences, is the left fold of Go `m[k] = v[0]` updates. -/
theorem mapFoldFirst_eq_foldl (data : Data) (m : List (String × String))
    (h : ∀ kv ∈ data, kv.2 ≠ []) :
    mapFoldFirst m data
      = (data.foldl (fun acc kv => upsert acc kv.1 (kv.2.headD "")) m, none) := by
  induction data generalizing m with
  | nil => rfl
  | cons kv rest ih =>
    obtain ⟨k, v⟩ := kv
    cases v with
    | nil => exact absurd rfl (h (k, []) (List.mem_cons_self _ _))
    | cons s vs =>
      simp only [mapFoldFirst, List.foldl, List.headD]
      exact ih _ (fun kv hkv => h kv (List.mem_cons_of_mem _ hkv))

/-- Population of a full-sequence map destination is the left fold of Go
`m[k] = v` updates. -/
theorem mapFoldAll_eq_foldl (data : Data) (m : List (String × List String)) :
    mapFoldAll m data = (data.foldl (fun acc kv => upsert acc kv.1 kv.2) m, none) := by
  induction data generalizing m with
  | nil => rfl
  | cons kv rest ih =>
    obtain ⟨k, v⟩ := kv
    simp only [mapFoldAll, List.foldl]
    exact ih _

/-- A non-numeric index key anywhere in the trimmed value set makes the
collection builder report an error. -/
theorem handleArrayFold_error_of_invalid_index {α : Type} (zero : α)
    (setE : String → α → α × Option BindErr) (maxA : Nat) (fn : String)
    (entries : Data) (xs : List α) (k : String) (v : List String)
    (hmem : (k, v) ∈ entries) (hbad : goParseInt k 0 = none) :
    ((handleArrayFold zero setE maxA fn entries xs).2).isSome := by
  induction entries generalizing xs with
  | nil => simp at hmem
  | cons kv rest ih =>
    obtain ⟨k', v'⟩ := kv
    rcases List.mem_cons.mp hmem with heq | hmem'
    · obtain ⟨hk, _⟩ := Prod.mk.injEq k v k' v' ▸ heq
      subst hk
      simp only [handleArrayFold, hbad, Option.isSome_some]
    · simp only [handleArrayFold]
      cases hpk : goParseInt k' 0 with
      | none => simp
      | some i =>
        repeat' split
        all_goals first
          | simp
          | exact ih _ hmem'

/-- A numeric index key above the configured maximum anywhere in the trimmed
value set makes the collection builder report an error. -/
theorem handleArrayFold_error_of_oversized_index {α : Type} (zero : α)
    (setE : String → α → α × Option BindErr) (maxA : Nat) (fn : String)
    (entries : Data) (xs : List α) (k : String) (v : List String) (i : Int)
    (hmem : (k, v) ∈ entries) (hi : goParseInt k 0 = some i) (hgt : (maxA : Int) < i) :
    ((handleArrayFold zero setE maxA fn entries xs).2).isSome := by
  induction entries generalizing xs with
  | nil => simp at hmem
  | cons kv rest ih =>
    obtain ⟨k', v'⟩ := kv
    rcases List.mem_cons.mp hmem with heq | hmem'
    · obtain ⟨hk, _⟩ := Prod.mk.injEq k v k' v' ▸ heq
      subst hk
      simp only [handleArrayFold, hi, if_pos hgt, Option.isSome_some]
    · simp only [handleArrayFold]
      cases hpk : goParseInt k' 0 with
      | none => simp
      | some j =>
        repeat' split
        all_goals first
          | simp
          | exact ih _ hmem'

/-! ## Claim theorems -/

/-- Claim C1: `Bind` applies the sources in the fixed order path parameters,
then query parameters, then body, each stage overwriting fields set by an
earlier stage; on the concrete request with path value `name=a`, query value
`name=b` and JSON body `{"name":"c"}` (behaving as the delegate hypothesis
states), the field tagged for all three sources ends as `"a"` after the path
stage, `"b"` after the query stage, and `"c"` after the whole bind. -/
theorem bind_applies_sources_in_order
    (jsonDe xmlDe : Request → Val → Val × Option BindErr)
    (hjson : jsonDe precedenceReq
        (vStructOf [([("param", "name"), ("query", "name"), ("json", "name")], .vStr "b")])
      = (vStructOf [([("param", "name"), ("query", "name"), ("json", "name")], .vStr "c")],
         none)) :
    (∀ (cfg : Config) (r : Request) (i : Val),
      Bind cfg r i
        = match BindPathParams cfg r i with
          | (v, some e) => (v, some e)
          | (v, none) =>
            match BindQueryParams cfg r v with
            | (v', some e) => (v', some e)
            | (v', none) => BindBody cfg r v') ∧
    BindPathParams (defaultConfig jsonDe xmlDe) precedenceReq precedenceDest
      = (vStructOf [([("param", "name"), ("query", "name"), ("json", "name")], .vStr "a")],
         none) ∧
    BindQueryParams (defaultConfig jsonDe xmlDe) precedenceReq
        (vStructOf [([("param", "name"), ("query", "name"), ("json", "name")], .vStr "a")])
      = (vStructOf [([("param", "name"), ("query", "name"), ("json", "name")], .vStr "b")],
         none) ∧
    Bind (defaultConfig jsonDe xmlDe) precedenceReq precedenceDest
      = (vStructOf [([("param", "name"), ("query", "name"), ("json", "name")], .vStr "c")],
         none) := by
  refine ⟨?_, rfl, rfl, ?_⟩
  · intro cfg r i
    rcases hp : BindPathParams cfg r i with ⟨v, e⟩
    cases e with
    | none =>
      rcases hq : BindQueryParams cfg r v with ⟨v', e'⟩
      cases e' with
      | none => simp [Bind, hp, hq]
      | some err => simp [Bind, hp, hq]
    | some err => simp [Bind, hp]
  · exact hjson

/-- Witness for C1: with the realistic JSON delegate, the full bind ends with
the body's value `"c"`. -/
theorem bind_applies_sources_in_order_witness :
    Bind (defaultConfig precedenceJsonDelegate idDeserializer) precedenceReq precedenceDest
      = (vStructOf [([("param", "name"), ("query", "name"), ("json", "name")], .vStr "c")],
         none) :=
  (bind_applies_sources_in_order precedenceJsonDelegate idDeserializer rfl).2.2.2

/-- Claim C2: for list-shaped fields bound through indexed notation, a
non-numeric index key anywhere in the trimmed values fails the call, a numeric
index above the configured maximum fails the call, and concretely
`elements[1001]=9` under the default configuration (maximum 1000) is an
error, as is the non-numeric index produced by `elements.oops`. -/
theorem list_index_bounds_enforced :
    (∀ (maxA : Nat) (fn : String) (entries : Data) (xs : List Int) (k : String)
        (v : List String), (k, v) ∈ entries → goParseInt k 0 = none →
        ((handleArrayValues (.vIntSlice xs) entries fn maxA).2).isSome) ∧
    (∀ (maxA : Nat) (fn : String) (entries : Data) (xs : List Int) (k : String)
        (v : List String) (i : Int),
        (k, v) ∈ entries → goParseInt k 0 = some i → (maxA : Int) < i →
        ((handleArrayValues (.vIntSlice xs) entries fn maxA).2).isSome) ∧
    bindData cfg0 elementsDest [("elements[1001]", ["9"])] "form" []
      = (elementsDest, some (.arraySizeExceeded "elements" 1000)) ∧
    bindData cfg0 elementsDest [("elements.oops", ["9"])] "form" []
      = (elementsDest, some (.invalidArrayIndex "oops")) := by
  refine ⟨?_, ?_, by decide, by decide⟩
  · intro maxA fn entries xs k v hmem hbad
    exact handleArrayFold_error_of_invalid_index _ _ _ _ _ _ _ _ hmem hbad
  · intro maxA fn entries xs k v i hmem hi hgt
    exact handleArrayFold_error_of_oversized_index _ _ _ _ _ _ _ _ _ hmem hi hgt

/-- Witness for C2: a non-numeric index key and an oversized index key each
make the collection builder fail on concrete inputs. -/
theorem list_index_bounds_enforced_witness :
    ((handleArrayValues (.vIntSlice []) [("zz", ["1"])] "elements" 1000).2).isSome ∧
    ((handleArrayValues (.vIntSlice []) [("1001", ["9"])] "elements" 1000).2).isSome :=
  ⟨list_index_bounds_enforced.1 1000 "elements" [("zz", ["1"])] [] "zz" ["1"]
      (List.mem_singleton.mpr rfl) (by decide),
   list_index_bounds_enforced.2.1 1000 "elements" [("1001", ["9"])] [] "1001" ["9"] 1001
      (List.mem_singleton.mpr rfl) (by decide) (by decide)⟩

/-- Counterexample to C3 as stated: with both indexed keys
(`elements[0]=7`, `elements[1]=8`) and repeated flat values under the exact
key (`elements=1,2,3`) in the source map, the indexed-notation path does
produce `[7, 8]`, yet the final list content is `[1, 2, 3]` — the one built
from the flat values, not the one from the indexed keys. -/
theorem indexed_precedence_counterexample :
    bindData cfg0 elementsDest
        [("elements", ["1", "2", "3"]), ("elements[0]", ["7"]), ("elements[1]", ["8"])]
        "form" []
      = (vStructOf [([("form", "elements")], .vIntSlice [1, 2, 3])], none) ∧
    handleArrayValues (.vIntSlice [])
        (trimData "elements"
          [("elements", ["1", "2", "3"]), ("elements[0]", ["7"]), ("elements[1]", ["8"])]
          arrayMatcherCaptures ".") "elements" 1000
      = (.vIntSlice [7, 8], none) ∧
    ([1, 2, 3] : List Int) ≠ [7, 8] := by
  refine ⟨by decide, by decide, by decide⟩

/-- Claim C3 (amended): when both input shapes are present for the same
list-shaped field, the indexed-notation path runs first but the flat repeated
values under the exact key are applied afterwards and overwrite its result, so
the final list content is the one built from the flat values; the indexed
keys alone populate the list when no flat value exists under the exact key. -/
theorem flat_values_overwrite_indexed :
    bindData cfg0 elementsDest
        [("elements", ["1", "2", "3"]), ("elements[0]", ["7"]), ("elements[1]", ["8"])]
        "form" []
      = (vStructOf [([("form", "elements")], .vIntSlice [1, 2, 3])], none) ∧
    bindData cfg0 elementsDest [("elements[0]", ["7"]), ("elements[1]", ["8"])] "form" []
      = (vStructOf [([("form", "elements")], .vIntSlice [7, 8])], none) ∧
    bindData cfg0 elementsDest [("elements", ["1", "2", "3"])] "form" []
      = (vStructOf [([("form", "elements")], .vIntSlice [1, 2, 3])], none) := by
  refine ⟨by decide, by decide, by decide⟩

/-- Counterexample to C4 as stated: with prefix `a`, the bracket-key pattern
and separator `.`, the key `ax[b]` — which neither starts with `a.` nor has
its bracket group immediately after the prefix (the remainder `x[b]` does not
begin with `[`) — is nevertheless included in the resolver's result,
rewritten to `b`. -/
theorem notation_resolver_adjacency_counterexample :
    getPrefixedFieldNames "a" ["ax[b]"] mapMatcherCaptures "." = [("ax[b]", "b")] ∧
    strHasPrefix "ax[b]" ("a" ++ ".") = false ∧
    strHasPrefix "x[b]" "[" = false := by
  refine ⟨by decide, by decide, by decide⟩

/-- Claim C4 (amended): the notation resolver includes a key exactly when the
key starts with prefix+separator (rewritten by stripping that prefix) or the
key starts with the prefix and the bracket pattern captures at least one group
anywhere in the key — not necessarily immediately after the prefix —
(rewritten by joining the captured groups, up to the first empty capture, with
the separator); any other key is absent from the result. -/
theorem notation_resolver_membership
    (pre : String) (matcher : String → List String) (sep k r : String) :
    (prefixedFieldName pre matcher sep k = some r ↔
      (strHasPrefix k (pre ++ sep) ∧ r = k.drop (pre ++ sep).length) ∨
      (strHasPrefix k pre ∧ ¬strHasPrefix k (pre ++ sep) ∧ matcher k ≠ [] ∧
        r = String.intercalate sep ((matcher k).takeWhile (fun v => v ≠ "")))) ∧
    getPrefixedFieldNames pre [k] matcher sep
      = ((prefixedFieldName pre matcher sep k).map (fun s => (k, s))).toList := by
  constructor
  · constructor
    · intro h
      unfold prefixedFieldName at h
      by_cases h1 : strHasPrefix k pre
      · rw [if_pos h1] at h
        by_cases h2 : strHasPrefix k (pre ++ sep)
        · rw [if_pos h2] at h
          exact Or.inl ⟨h2, (Option.some.injEq .. ▸ h).symm⟩
        · rw [if_neg h2] at h
          by_cases h3 : (matcher k).length > 0
          · rw [if_pos h3] at h
            exact Or.inr ⟨h1, h2, List.length_pos.mp h3, (Option.some.injEq .. ▸ h).symm⟩
          · rw [if_neg h3] at h
            exact absurd h (Option.noConfusion)
      · rw [if_neg h1] at h
        exact absurd h (Option.noConfusion)
    · intro h
      unfold prefixedFieldName
      rcases h with ⟨h2, hr⟩ | ⟨h1, h2, hm, hr⟩
      · have h1 : strHasPrefix k pre := by
          unfold strHasPrefix at h2 ⊢
          have : pre.data <+: (pre ++ sep).data := by
            rw [String.data_append]
            exact List.prefix_append _ _
          exact List.isPrefixOf_iff_prefix.mpr
            (this.trans ( List.isPrefixOf_iff_prefix.mp h2))
        rw [if_pos h1, if_pos h2, hr]
      · rw [if_pos h1, if_neg h2, if_pos (List.length_pos.mpr hm), hr]
  · unfold getPrefixedFieldNames
    cases h : prefixedFieldName pre matcher sep k with
    | none => simp [h]
    | some s => simp [h, upsert]

/-- Claim C5 against the analyzed code (`DefaultBinder.BindHeaders`): the
call binds the header map under the FORM tag name, so a field tagged only
`header:"X-Header-Value"` is skipped and the lower-cased header value `v` is
never assigned; the same data bound under the header tag name — what the
sibling revision and the documentation prescribe — does assign `v` through
the case-insensitive fallback, and a header absent in any casing skips the
field without error. -/
theorem bindHeaders_form_tag_divergence :
    BindHeaders cfg0 headerReq headerDest = (headerDest, none) ∧
    BindHeadersHeaderTag cfg0 headerReq headerDest
      = (vStructOf [([("header", "X-Header-Value")], .vStr "v")], none) ∧
    BindHeadersHeaderTag cfg0 headerAbsentReq headerDest = (headerDest, none) := by
  refine ⟨by decide, by decide, by decide⟩

/-- Claim C6: a string-keyed map destination of supported element shape is
populated directly from all keys of the current map (no field iteration), the
interface-shaped element receiving only the first string of each key's value
sequence and the `[]string`-shaped element the full ordered sequence; from
`a=1&a=2&b=x` a `map[string]interface{}` destination gets `a = "1"` while a
`map[string][]string` destination gets `a = ["1","2"]`. -/
theorem map_destination_element_semantics :
    (∀ (cfg : Config) (m : List (String × String)) (data : Data) (tag : String)
        (files : Files), (∀ kv ∈ data, kv.2 ≠ []) →
        bindData cfg (.vMapIface m) data tag files
          = (.vMapIface (data.foldl (fun acc kv => upsert acc kv.1 (kv.2.headD "")) m),
             none)) ∧
    (∀ (cfg : Config) (m : List (String × List String)) (data : Data) (tag : String)
        (files : Files),
        bindData cfg (.vMapStrSlice m) data tag files
          = (.vMapStrSlice (data.foldl (fun acc kv => upsert acc kv.1 kv.2) m), none)) ∧
    (∀ (cfg : Config) (m : List (String × String)) (data : Data) (tag : String)
        (files : Files), (∀ kv ∈ data, kv.2 ≠ []) →
        bindData cfg (.vMapStr m) data tag files
          = (.vMapStr (data.foldl (fun acc kv => upsert acc kv.1 (kv.2.headD "")) m),
             none)) ∧
    bindData cfg0 (.vMapIface []) [("a", ["1", "2"]), ("b", ["x"])] "query" []
      = (.vMapIface [("a", "1"), ("b", "x")], none) ∧
    bindData cfg0 (.vMapStrSlice []) [("a", ["1", "2"]), ("b", ["x"])] "query" []
      = (.vMapStrSlice [("a", ["1", "2"]), ("b", ["x"])], none) := by
  refine ⟨?_, ?_, ?_, by decide, by decide⟩
  · intro cfg m data tag files h
    unfold bindData
    split
    · next hempty =>
      have hd : data = [] := by
        cases data with
        | nil => rfl
        | cons kv rest => simp at hempty
      subst hd
      rfl
    · show (Val.vMapIface (mapFoldFirst m data).1, (mapFoldFirst m data).2) = _
      rw [mapFoldFirst_eq_foldl data m h]
  · intro cfg m data tag files
    unfold bindData
    split
    · next hempty =>
      have hd : data = [] := by
        cases data with
        | nil => rfl
        | cons kv rest => simp at hempty
      subst hd
      rfl
    · show (Val.vMapStrSlice (mapFoldAll m data).1, (mapFoldAll m data).2) = _
      rw [mapFoldAll_eq_foldl data m]
  · intro cfg m data tag files h
    unfold bindData
    split
    · next hempty =>
      have hd : data = [] := by
        cases data with
        | nil => rfl
        | cons kv rest => simp at hempty
      subst hd
      rfl
    · show (Val.vMapStr (mapFoldFirst m data).1, (mapFoldFirst m data).2) = _
      rw [mapFoldFirst_eq_foldl data m h]

/-- Witness for C6: the general map-population statements applied to the
concrete query `a=1&a=2&b=x`. -/
theorem map_destination_element_semantics_witness :
    bindData cfg0 (.vMapIface []) [("a", ["1", "2"]), ("b", ["x"])] "query" []
      = (.vMapIface [("a", "1"), ("b", "x")], none) ∧
    bindData cfg0 (.vMapStr []) [("a", ["1", "2"]), ("b", ["x"])] "query" []
      = (.vMapStr [("a", "1"), ("b", "x")], none) :=
  ⟨(map_destination_element_semantics.1 cfg0 [] [("a", ["1", "2"]), ("b", ["x"])] "query" []
      (by decide)).trans (by decide),
   (map_destination_element_semantics.2.2.1 cfg0 [] [("a", ["1", "2"]), ("b", ["x"])] "query" []
      (by decide)).trans (by decide)⟩

/-- Claim C7: the first error in the recursive walk aborts the whole call and
is returned, with no rollback: binding `name=John, age=abc, email=j@x` into a
three-field record fails on the malformed `age`, while the earlier `name`
field keeps its newly written value `"John"` and the later `email` field is
left untouched. -/
theorem first_error_aborts_and_keeps_mutations :
    bindData cfg0 rollbackDest rollbackData "query" []
      = (vStructOf [([("query", "name")], .vStr "John"), ([("query", "age")], .vInt 0),
          ([("query", "email")], .vStr "")], some (.parseFailure "abc")) ∧
    BindQueryParams cfg0 rollbackReq rollbackDest
      = (vStructOf [([("query", "name")], .vStr "John"), ([("query", "age")], .vInt 0),
          ([("query", "email")], .vStr "")], some (.parseFailure "abc")) := by
  refine ⟨by decide, by decide⟩

/-- Claim C8: whenever file data is present, a bare non-optional
`multipart.FileHeader` field tagged for the form source fails the bind call —
even when a file is uploaded under the field's own key — while the pointer,
slice-of-value and slice-of-pointer shapes succeed; with zero files under the
field's tag key no file assignment is made and ordinary value binding
proceeds (here: the field is skipped without error). -/
theorem file_destination_shape_rules :
    (∀ files : Files, files ≠ [] →
      bindData cfg0 (vStructOf [([("form", "file")], .vFileVal ⟨""⟩)]) [] "form" files
        = (vStructOf [([("form", "file")], .vFileVal ⟨""⟩)],
           some .fileHeaderValueNotSupported)) ∧
    bindData cfg0 (vStructOf [([("form", "file")], .vFilePtr none)]) [] "form"
        [("file", [sampleFile])]
      = (vStructOf [([("form", "file")], .vFilePtr (some sampleFile))], none) ∧
    bindData cfg0 (vStructOf [([("form", "file")], .vFileValSlice [])]) [] "form"
        [("file", [sampleFile])]
      = (vStructOf [([("form", "file")], .vFileValSlice [sampleFile])], none) ∧
    bindData cfg0 (vStructOf [([("form", "file")], .vFilePtrSlice [])]) [] "form"
        [("file", [sampleFile])]
      = (vStructOf [([("form", "file")], .vFilePtrSlice [sampleFile])], none) ∧
    bindData cfg0 (vStructOf [([("form", "file")], .vFilePtr none)]) [] "form"
        [("other", [sampleFile])]
      = (vStructOf [([("form", "file")], .vFilePtr none)], none) := by
  refine ⟨?_, by decide, by decide, by decide, by decide⟩
  · intro files hne
    cases files with
    | nil => exact absurd rfl hne
    | cons f fs => rfl

/-- Witness for C8: the bare file-value field fails when a file is uploaded
under its own key. -/
theorem file_destination_shape_rules_witness :
    bindData cfg0 (vStructOf [([("form", "file")], .vFileVal ⟨""⟩)]) [] "form"
        [("file", [sampleFile])]
      = (vStructOf [([("form", "file")], .vFileVal ⟨""⟩)],
         some .fileHeaderValueNotSupported) :=
  file_destination_shape_rules.1 [("file", [sampleFile])] (by decide)

/-- Claim C9: every scalar setter replaces an empty-string input by the
kind's zero literal before parsing and therefore never fails on it (at every
supported width), and a malformed non-empty numeral makes the setter return
the parse failure with the field left unassigned. -/
theorem scalar_coercion_empty_and_malformed :
    (∀ (b : Nat) (f : Int), b ≤ 64 → setIntField "" b f = (0, none)) ∧
    (∀ (b : Nat) (f : Nat), b ≤ 64 → setUintField "" b f = (0, none)) ∧
    (∀ f : Bool, setBoolField "" f = (false, none)) ∧
    (∀ (b : Nat) (f : ℚ), setFloatField "" b f = (0, none)) ∧
    (∀ (s : String) (b : Nat) (f : Int), s ≠ "" → goParseInt s b = none →
        setIntField s b f = (f, some (.parseFailure s))) ∧
    (∀ (s : String) (b : Nat) (f : Nat), s ≠ "" → goParseUint s b = none →
        setUintField s b f = (f, some (.parseFailure s))) ∧
    (∀ (s : String) (f : Bool), s ≠ "" → goParseBool s = none →
        setBoolField s f = (f, some (.parseFailure s))) ∧
    (∀ (s : String) (b : Nat) (f : ℚ), s ≠ "" → goParseFloat s = none →
        setFloatField s b f = (f, some (.parseFailure s))) := by
  refine ⟨?_, ?_, ?_, ?_, ?_, ?_, ?_, ?_⟩
  · intro b f hb
    simp [setIntField, goParseInt_zero_literal hb]
  · intro b f hb
    simp [setUintField, goParseUint_zero_literal hb]
  · intro f
    rfl
  · intro b f
    simp [setFloatField, goParseFloat_zero_literal]
  · intro s b f hs hp
    simp [setIntField, hs, hp]
  · intro s b f hs hp
    simp [setUintField, hs, hp]
  · intro s f hs hp
    simp [setBoolField, hs, hp]
  · intro s b f hs hp
    simp [setFloatField, hs, hp]

/-- Witness for C9: the empty-string and malformed-numeral behaviors at
concrete widths and inputs. -/
theorem scalar_coercion_empty_and_malformed_witness :
    setIntField "" 8 7 = (0, none) ∧
    setUintField "" 16 7 = (0, none) ∧
    setBoolField "" true = (false, none) ∧
    setFloatField "" 64 5 = (0, none) ∧
    setIntField "abc" 0 7 = (7, some (.parseFailure "abc")) ∧
    setUintField "-5" 8 7 = (7, some (.parseFailure "-5")) ∧
    setBoolField "yes" true = (true, some (.parseFailure "yes")) ∧
    setFloatField "abc" 64 5 = (5, some (.parseFailure "abc")) :=
  ⟨scalar_coercion_empty_and_malformed.1 8 7 (by decide),
   scalar_coercion_empty_and_malformed.2.1 16 7 (by decide),
   scalar_coercion_empty_and_malformed.2.2.1 true,
   scalar_coercion_empty_and_malformed.2.2.2.1 64 5,
   scalar_coercion_empty_and_malformed.2.2.2.2.1 "abc" 0 7 (by decide) (by decide),
   scalar_coercion_empty_and_malformed.2.2.2.2.2.1 "-5" 8 7 (by decide) (by decide),
   scalar_coercion_empty_and_malformed.2.2.2.2.2.2.1 "yes" true (by decide) (by decide),
   scalar_coercion_empty_and_malformed.2.2.2.2.2.2.2 "abc" 64 5 (by decide) (by decide)⟩

/-- Claim C10: a string-keyed map destination whose element shape is
unsupported (here `map[string]int`) makes `bindData` return success while
leaving the destination entirely unchanged, for every input map, tag and file
set — the data is silently dropped. -/
theorem unsupported_map_element_shape_silently_dropped (cfg : Config)
    (m : List (String × Int)) (data : Data) (tag : String) (files : Files) :
    bindData cfg (.vMapInt m) data tag files = (.vMapInt m, none) := by
  unfold bindData
  split
  · rfl
  · rfl

end GB
